import Mathlib

/-!
Shallow embedding of the fitness-tracker bot's core
(`telegram-fitness-bot.py`): the sqlite-backed helper functions
`add_user`, `add_challenge`, `get_active_challenge`, `record_completion`
and `get_monthly_stats`, plus the decision logic of the `check_progress`
handler.  Tables are lists kept in scan (rowid/insertion) order;
`AUTOINCREMENT` ids are modelled by explicit counters starting at 1;
`datetime.now()` is an explicit integer-seconds parameter to each
operation; `timedelta(days=30)` is `30 * 86400` seconds.
-/

/-- Row of the `users` table: `(user_id INTEGER PRIMARY KEY, username TEXT, first_name TEXT)`.
`username`/`first_name` may be NULL (Telegram users need not have them). -/
structure User where
  user_id : Nat
  username : Option String
  first_name : Option String
deriving DecidableEq

/-- Row of the `challenges` table:
`(id PK AUTOINCREMENT, user_id, challenge_text, frequency, created_at, active DEFAULT 1)`. -/
structure Challenge where
  id : Nat
  user_id : Nat
  challenge_text : String
  frequency : String
  created_at : Int
  active : Bool
deriving DecidableEq

/-- Row of the `completions` table:
`(id PK AUTOINCREMENT, user_id, challenge_id, completed_at)`. -/
structure Completion where
  id : Nat
  user_id : Nat
  challenge_id : Nat
  completed_at : Int
deriving DecidableEq

/-- The whole database state: the three tables (in rowid scan order) plus the
next AUTOINCREMENT id of `challenges` and `completions`. -/
structure DB where
  users : List User
  challenges : List Challenge
  completions : List Completion
  nextChallengeId : Nat
  nextCompletionId : Nat
deriving DecidableEq

/-- The freshly created database of `init_db`: three empty tables;
sqlite AUTOINCREMENT hands out ids from 1. -/
def initDB : DB := ⟨[], [], [], 1, 1⟩

/-- `add_user`: `INSERT OR REPLACE INTO users VALUES (?, ?, ?)` — the row with
the same primary key (if any) is deleted and the new row inserted. -/
def add_user (db : DB) (user_id : Nat) (username first_name : Option String) : DB :=
  { db with users := db.users.filter (fun u => !(u.user_id == user_id)) ++
      [⟨user_id, username, first_name⟩] }

/-- The per-row effect of `UPDATE challenges SET active = 0 WHERE user_id = ?`. -/
def deactFor (user_id : Nat) (ch : Challenge) : Challenge :=
  if ch.user_id == user_id then { ch with active := false } else ch

/-- `add_challenge`: first `UPDATE challenges SET active = 0 WHERE user_id = ?`,
then `INSERT INTO challenges (user_id, challenge_text, frequency, created_at)`
(so `active` takes its schema default 1).  No validation of the inputs occurs. -/
def add_challenge (db : DB) (user_id : Nat) (challenge_text frequency : String)
    (now : Int) : DB :=
  { db with
    challenges := db.challenges.map (deactFor user_id) ++
      [⟨db.nextChallengeId, user_id, challenge_text, frequency, now, true⟩],
    nextChallengeId := db.nextChallengeId + 1 }

/-- The rows matched by `WHERE user_id = ? AND active = 1`, in scan order. -/
def activeChallenges (db : DB) (user_id : Nat) : List Challenge :=
  db.challenges.filter (fun ch => ch.user_id == user_id && ch.active)

/-- `get_active_challenge`: `SELECT id, challenge_text, frequency FROM challenges
WHERE user_id = ? AND active = 1` followed by `fetchone()` — the first matching
row in scan order, or `none` when there is no match. -/
def get_active_challenge (db : DB) (user_id : Nat) : Option (Nat × String × String) :=
  (activeChallenges db user_id).head?.map (fun ch => (ch.id, ch.challenge_text, ch.frequency))

/-- `record_completion`: `INSERT INTO completions (user_id, challenge_id, completed_at)
VALUES (?, ?, ?)` — an unconditional append; `challenge_id` is whatever the
caller passed in (in `button_callback` it is parsed out of the client's
`complete_<id>` callback data). -/
def record_completion (db : DB) (user_id challenge_id : Nat) (now : Int) : DB :=
  { db with
    completions := db.completions ++ [⟨db.nextCompletionId, user_id, challenge_id, now⟩],
    nextCompletionId := db.nextCompletionId + 1 }

/-- `thirty_days_ago = datetime.now() - timedelta(days=30)`, in seconds. -/
def monthCutoff (now : Int) : Int := now - 30 * 86400

/-- The in-window completion count of one user: the rows joined to that user by
`LEFT JOIN completions c ON u.user_id = c.user_id AND c.completed_at > ?`,
counted by `COUNT(c.id)`. -/
def completionCount (db : DB) (user_id : Nat) (now : Int) : Nat :=
  (db.completions.filter (fun c => c.user_id == user_id && monthCutoff now < c.completed_at)).length

/-- One output row of the `GROUP BY u.user_id` aggregation, before the final
`ORDER BY`: the group key plus the selected columns. -/
structure GroupRow where
  user_id : Nat
  first_name : Option String
  username : Option String
  completion_count : Nat
deriving DecidableEq

/-- The grouped rows of the stats query, one per `users` row (the group key
`u.user_id` is the table's primary key, so each group is a single user row). -/
def groupRows (db : DB) (now : Int) : List GroupRow :=
  db.users.map (fun u => ⟨u.user_id, u.first_name, u.username, completionCount db u.user_id now⟩)

/-- The `ORDER BY completion_count DESC` ordering on grouped rows. -/
def statOrder (a b : GroupRow) : Prop := b.completion_count ≤ a.completion_count

instance : DecidableRel statOrder :=
  fun a b => inferInstanceAs (Decidable (b.completion_count ≤ a.completion_count))

instance : IsTotal GroupRow statOrder := ⟨fun a b => Nat.le_total b.completion_count a.completion_count⟩

instance : IsTrans GroupRow statOrder := ⟨fun _ _ _ h₁ h₂ => Nat.le_trans h₂ h₁⟩

/-- `get_monthly_stats`: the grouped rows sorted by `completion_count DESC`,
projected to the selected `(first_name, username, completion_count)` columns. -/
def get_monthly_stats (db : DB) (now : Int) : List (Option String × Option String × Nat) :=
  (List.insertionSort statOrder (groupRows db now)).map
    (fun r => (r.first_name, r.username, r.completion_count))

/-- Outcome of the `/check` handler `check_progress`: with no active challenge it
replies with a prompt to create one and returns; otherwise it offers the
completion button carrying `complete_<challenge_id>`. -/
inductive CheckProgressResult where
  | promptCreate
  | askCompletion (challenge_id : Nat) (challenge_text frequency : String)
deriving DecidableEq

/-- The decision logic of `check_progress`: resolve the active challenge; if
absent, prompt to create one; otherwise ask about completion of that challenge. -/
def check_progress (db : DB) (user_id : Nat) : CheckProgressResult :=
  match get_active_challenge db user_id with
  | none => .promptCreate
  | some (cid, t, f) => .askCompletion cid t f

/-- One core mutation, as invoked by the interaction layer: user registration
(`/start`), challenge creation (`receive_challenge`), completion recording
(the `complete_` button callback) and the read-only stats query (`/stats`). -/
inductive Op where
  | registerUser (user_id : Nat) (username first_name : Option String)
  | setChallenge (user_id : Nat) (challenge_text frequency : String) (now : Int)
  | recordCompletion (user_id challenge_id : Nat) (now : Int)
  | monthlyLeaderboard (now : Int)

/-- Apply one operation to the database. `monthlyLeaderboard` only reads. -/
def applyOp (db : DB) : Op → DB
  | .registerUser uid un fn => add_user db uid un fn
  | .setChallenge uid t f now => add_challenge db uid t f now
  | .recordCompletion uid cid now => record_completion db uid cid now
  | .monthlyLeaderboard _ => db

/-- The state reached from the fresh database by a sequence of operations. -/
def runOps (ops : List Op) : DB := ops.foldl applyOp initDB

/-! ### Helper lemmas about the active-challenge set -/

theorem filter_map_deactFor_self (l : List Challenge) (uid : Nat) :
    (l.map (deactFor uid)).filter (fun ch => ch.user_id == uid && ch.active) = [] := by
  induction l with
  | nil => rfl
  | cons ch l ih =>
    simp only [List.map_cons, List.filter_cons]
    by_cases h : ch.user_id = uid
    · simp [deactFor, h, ih]
    · simp [deactFor, h, ih]

theorem filter_map_deactFor_other (l : List Challenge) (uid uid' : Nat) (h : uid ≠ uid') :
    (l.map (deactFor uid')).filter (fun ch => ch.user_id == uid && ch.active) =
      l.filter (fun ch => ch.user_id == uid && ch.active) := by
  induction l with
  | nil => rfl
  | cons ch l ih =>
    simp only [List.map_cons, List.filter_cons]
    by_cases hc : ch.user_id = uid'
    · have hne : ¬ ch.user_id = uid := by omega
      have hne' : ¬ uid' = uid := fun e => h e.symm
      simp [deactFor, hc, hne, hne', ih]
    · simp [deactFor, hc, ih]

theorem activeChallenges_add_challenge_self (db : DB) (uid : Nat) (t f : String) (now : Int) :
    activeChallenges (add_challenge db uid t f now) uid =
      [⟨db.nextChallengeId, uid, t, f, now, true⟩] := by
  unfold activeChallenges add_challenge
  simp [List.filter_append, filter_map_deactFor_self]

theorem activeChallenges_add_challenge_other (db : DB) (uid uid' : Nat) (t f : String)
    (now : Int) (h : uid ≠ uid') :
    activeChallenges (add_challenge db uid' t f now) uid = activeChallenges db uid := by
  have hne' : ¬ uid' = uid := fun e => h e.symm
  unfold activeChallenges add_challenge
  simp [List.filter_append, filter_map_deactFor_other _ _ _ h, hne']

theorem activeChallenges_applyOp_le (db : DB) (op : Op) (uid : Nat)
    (h : (activeChallenges db uid).length ≤ 1) :
    (activeChallenges (applyOp db op) uid).length ≤ 1 := by
  cases op with
  | registerUser uid' un fn => exact h
  | setChallenge uid' t f now =>
    show (activeChallenges (add_challenge db uid' t f now) uid).length ≤ 1
    by_cases he : uid = uid'
    · subst he
      rw [activeChallenges_add_challenge_self]
      simp
    · rw [activeChallenges_add_challenge_other _ _ _ _ _ _ he]
      exact h
  | recordCompletion _ _ _ => exact h
  | monthlyLeaderboard _ => exact h

theorem runOps_active_le (ops : List Op) (uid : Nat) :
    (activeChallenges (runOps ops) uid).length ≤ 1 := by
  suffices h : ∀ db, (activeChallenges db uid).length ≤ 1 →
      (activeChallenges (List.foldl applyOp db ops) uid).length ≤ 1 by
    apply h
    simp [initDB, activeChallenges]
  induction ops with
  | nil => exact fun db h => h
  | cons op ops ih => exact fun db h => ih _ (activeChallenges_applyOp_le db op uid h)

/-! ### Uniqueness of user rows in reachable states -/

theorem users_nodup_add_user (db : DB) (uid : Nat) (un fn : Option String)
    (h : (db.users.map User.user_id).Nodup) :
    ((add_user db uid un fn).users.map User.user_id).Nodup := by
  unfold add_user
  simp only [List.map_append, List.map_cons, List.map_nil]
  have h1 : ((db.users.filter (fun u => !(u.user_id == uid))).map User.user_id).Nodup :=
    h.sublist ((db.users.filter_sublist).map User.user_id)
  have h2 : uid ∉ (db.users.filter (fun u => !(u.user_id == uid))).map User.user_id := by
    intro hm
    rcases List.mem_map.1 hm with ⟨u, hu, he⟩
    rcases List.mem_filter.1 hu with ⟨_, hp⟩
    simp [he] at hp
  exact List.Nodup.append h1 (List.nodup_singleton uid)
    (fun a ha hb => by simp at hb; exact h2 (hb ▸ ha))

theorem users_nodup_applyOp (db : DB) (op : Op)
    (h : (db.users.map User.user_id).Nodup) :
    (((applyOp db op).users.map User.user_id)).Nodup := by
  cases op with
  | registerUser uid un fn => exact users_nodup_add_user db uid un fn h
  | setChallenge uid t f now => exact h
  | recordCompletion uid cid now => exact h
  | monthlyLeaderboard now => exact h

theorem runOps_users_nodup (ops : List Op) : ((runOps ops).users.map User.user_id).Nodup := by
  suffices h : ∀ db, (db.users.map User.user_id).Nodup →
      ((List.foldl applyOp db ops).users.map User.user_id).Nodup by
    apply h
    simp [initDB]
  induction ops with
  | nil => exact fun db h => h
  | cons op ops ih => exact fun db h => ih _ (users_nodup_applyOp db op h)

/-- C1: in every state reachable from the fresh database by any sequence of
registerUser, setChallenge, recordCompletion and monthlyLeaderboard
operations, every user has at most one challenge row with `active = true`;
moreover `add_challenge` deactivates every prior challenge of the user, so
that right after it the user's only active challenge is the newly inserted
row. -/
theorem C1_at_most_one_active_challenge :
    (∀ ops uid, (activeChallenges (runOps ops) uid).length ≤ 1) ∧
    (∀ db uid t f now, activeChallenges (add_challenge db uid t f now) uid =
      [⟨db.nextChallengeId, uid, t, f, now, true⟩]) :=
  ⟨runOps_active_le, activeChallenges_add_challenge_self⟩

/-! ### Concrete databases used in scenario claims -/

/-- User 1 registered on a fresh database. -/
def dbU1 : DB := add_user initDB 1 (some "u") (some "U")

/-- The two-setChallenge scenario of the spec: pushups then squats for user 1. -/
def dbScenario7 : DB := add_challenge (add_challenge dbU1 1 "10 pushups" "daily" 0) 1 "20 squats" "weekly" 1

/-- User 1 with two successive challenges, so the first challenge id (1) is stale. -/
def dbC2 : DB := add_challenge (add_challenge dbU1 1 "situps" "daily" 0) 1 "plank" "daily" 1

/-- User 3 registered, no challenges yet. -/
def dbC3 : DB := add_user initDB 3 (some "v") (some "V")

/-- User 2 registered, no challenges yet. -/
def dbC4 : DB := add_user initDB 2 (some "w") (some "W")

/-- User 4 with one active challenge (id 1). -/
def dbC9 : DB := add_challenge (add_user initDB 4 none (some "X")) 4 "run" "daily" 0

/-- A corrupted state in which user 1 has two rows with `active = true`
(structurally possible in the schema, never produced by the operations). -/
def db2Active : DB :=
  ⟨[⟨1, some "u", some "U"⟩],
   [⟨1, 1, "a", "daily", 0, true⟩, ⟨2, 1, "b", "daily", 0, true⟩],
   [], 3, 1⟩

/-- C2 counterexample: with user 1's active challenge having id 2 (the earlier
challenge id 1 is stale), `record_completion` invoked with the caller-supplied
stale id 1 appends a completion row referencing challenge 1, not the resolved
active challenge 2 — refuting that the appended row references the resolved id. -/
theorem C2_counterexample :
    get_active_challenge dbC2 1 = some (2, "plank", "daily") ∧
    (record_completion dbC2 1 1 5).completions.map (fun c => c.challenge_id) = [1] := by
  decide

/-- C2 (amended): record_completion appends a row referencing exactly the
caller-supplied challenge id (in `button_callback` this id is parsed from the
client's `complete_<id>` callback data); it performs no active-challenge
resolution and leaves the challenges table untouched. -/
theorem C2_record_completion_uses_caller_id :
    ∀ db uid cid now,
      (record_completion db uid cid now).completions.map (fun c => c.challenge_id) =
        db.completions.map (fun c => c.challenge_id) ++ [cid] ∧
      (record_completion db uid cid now).challenges = db.challenges := by
  intro db uid cid now
  exact ⟨by simp [record_completion], rfl⟩

/-- C3 counterexample: `add_challenge` with empty text writes a row anyway —
starting from a challenge table that is empty, the table afterwards holds the
new (empty-text) row, refuting "ValidationError, no row written". -/
theorem C3_counterexample :
    dbC3.challenges = [] ∧
    (add_challenge dbC3 3 "" "daily" 0).challenges = [⟨1, 3, "", "daily", 0, true⟩] := by
  decide

/-- C3 (amended): `add_challenge` performs no validation of its inputs: for any
text (including the empty string) and any frequency string whatsoever it
deactivates the user's prior challenges and appends one new active row, so the
challenges table always grows by exactly one row. -/
theorem C3_set_challenge_never_validates :
    ∀ db uid t f now,
      (add_challenge db uid t f now).challenges.length = db.challenges.length + 1 ∧
      activeChallenges (add_challenge db uid t f now) uid =
        [⟨db.nextChallengeId, uid, t, f, now, true⟩] := by
  intro db uid t f now
  exact ⟨by simp [add_challenge], activeChallenges_add_challenge_self db uid t f now⟩

/-- C4 counterexample: user 2 has no active challenge, yet `record_completion`
does not fail and appends a completion row — refuting "fails with
NoActiveChallenge and appends no completion row". -/
theorem C4_counterexample :
    get_active_challenge dbC4 2 = none ∧
    (record_completion dbC4 2 7 0).completions.length = dbC4.completions.length + 1 := by
  decide

/-- C4 (amended): when the user has no active challenge, the `/check` handler
(`check_progress`) replies with the create-a-challenge prompt and writes
nothing, but `record_completion` itself performs no active-challenge check and
never fails: invoked anyway (e.g. through a stale `complete_` callback) it
still appends a completion row. -/
theorem C4_no_active_challenge_behaviour :
    ∀ db uid cid now, get_active_challenge db uid = none →
      check_progress db uid = CheckProgressResult.promptCreate ∧
      (record_completion db uid cid now).completions =
        db.completions ++ [⟨db.nextCompletionId, uid, cid, now⟩] := by
  intro db uid cid now h
  exact ⟨by simp [check_progress, h], rfl⟩

/-- C4 witness: the amended behaviour at the concrete no-challenge state. -/
theorem C4_witness :
    check_progress dbC4 2 = CheckProgressResult.promptCreate ∧
    (record_completion dbC4 2 7 0).completions =
      dbC4.completions ++ [⟨dbC4.nextCompletionId, 2, 7, 0⟩] :=
  C4_no_active_challenge_behaviour dbC4 2 7 0 (by decide)

/-- C6 counterexample: in a corrupted state with two active rows for user 1,
`get_active_challenge` does not fail (its return type has no error case at
all): it silently yields the first matching row — refuting "the affected
request fails". -/
theorem C6_counterexample :
    (activeChallenges db2Active 1).length = 2 ∧
    get_active_challenge db2Active 1 = some (1, "a", "daily") := by
  decide

/-- C6 (amended): whenever the stored state holds one or more active challenges
for a user — in particular more than one — `get_active_challenge` silently
returns the first matching row in scan order (`fetchone`), never an error. -/
theorem C6_fetchone_picks_first :
    ∀ db uid c rest, activeChallenges db uid = c :: rest →
      get_active_challenge db uid = some (c.id, c.challenge_text, c.frequency) := by
  intro db uid c rest h
  simp [get_active_challenge, h]

/-- C6 witness: the amended behaviour at the corrupted two-active state. -/
theorem C6_witness :
    get_active_challenge db2Active 1 =
      some ((⟨1, 1, "a", "daily", 0, true⟩ : Challenge).id,
            (⟨1, 1, "a", "daily", 0, true⟩ : Challenge).challenge_text,
            (⟨1, 1, "a", "daily", 0, true⟩ : Challenge).frequency) :=
  C6_fetchone_picks_first db2Active 1 ⟨1, 1, "a", "daily", 0, true⟩
    [⟨2, 1, "b", "daily", 0, true⟩] (by decide)

/-- C7: after setting "10 pushups"/daily and then "20 squats"/weekly for user 1,
the active-challenge query returns only the squats challenge, while the pushups
row still exists in storage with `active = false`; in general `add_challenge`
never deletes a row — every pre-existing challenge keeps its id, owner, text,
frequency and creation time, and exactly one new row is appended. -/
theorem C7_replace_deactivates_never_deletes :
    (get_active_challenge dbScenario7 1 = some (2, "20 squats", "weekly") ∧
     dbScenario7.challenges =
       [⟨1, 1, "10 pushups", "daily", 0, false⟩, ⟨2, 1, "20 squats", "weekly", 1, true⟩]) ∧
    (∀ db uid t f now,
      (add_challenge db uid t f now).challenges.map
          (fun ch => (ch.id, ch.user_id, ch.challenge_text, ch.frequency, ch.created_at)) =
        db.challenges.map
          (fun ch => (ch.id, ch.user_id, ch.challenge_text, ch.frequency, ch.created_at)) ++
          [(db.nextChallengeId, uid, t, f, now)]) := by
  constructor
  · exact ⟨by decide, by decide⟩
  · intro db uid t f now
    have hcomp :
        ((fun ch : Challenge => (ch.id, ch.user_id, ch.challenge_text, ch.frequency, ch.created_at)) ∘
          deactFor uid) =
        (fun ch : Challenge => (ch.id, ch.user_id, ch.challenge_text, ch.frequency, ch.created_at)) := by
      funext ch
      simp only [Function.comp_apply]
      unfold deactFor
      split <;> rfl
    simp only [add_challenge, List.map_append, List.map_map, hcomp, List.map_cons, List.map_nil]

/-- C8: registering the same user id twice is an idempotent upsert — afterwards
exactly one row for that id exists, carrying the fields of the latest
registration, and the rows of every other user id are untouched. -/
theorem C8_register_user_idempotent_upsert :
    ∀ db uid (un₁ fn₁ un₂ fn₂ : Option String),
      (add_user (add_user db uid un₁ fn₁) uid un₂ fn₂).users.filter
          (fun u => u.user_id == uid) = [⟨uid, un₂, fn₂⟩] ∧
      (add_user (add_user db uid un₁ fn₁) uid un₂ fn₂).users.filter
          (fun u => !(u.user_id == uid)) =
        db.users.filter (fun u => !(u.user_id == uid)) := by
  intro db uid un₁ fn₁ un₂ fn₂
  unfold add_user
  simp [List.filter_append, List.filter_filter]

/-- C9: record_completion is not idempotent — with an active challenge present,
two successive calls (even with the same timestamp and the same challenge)
append two distinct rows whose ids differ. -/
theorem C9_record_completion_not_idempotent :
    ∀ db uid cid t₁ t₂, (get_active_challenge db uid).isSome = true →
      (record_completion (record_completion db uid cid t₁) uid cid t₂).completions =
        db.completions ++ [⟨db.nextCompletionId, uid, cid, t₁⟩,
          ⟨db.nextCompletionId + 1, uid, cid, t₂⟩] ∧
      db.nextCompletionId ≠ db.nextCompletionId + 1 := by
  intro db uid cid t₁ t₂ h
  exact ⟨by simp [record_completion], by omega⟩

/-- C9 witness: two same-timestamp completions for user 4 (active challenge 1)
persist as two rows with ids 1 and 2. -/
theorem C9_witness :
    (record_completion (record_completion dbC9 4 1 10) 4 1 10).completions =
      dbC9.completions ++ [⟨dbC9.nextCompletionId, 4, 1, 10⟩,
        ⟨dbC9.nextCompletionId + 1, 4, 1, 10⟩] ∧
    dbC9.nextCompletionId ≠ dbC9.nextCompletionId + 1 :=
  C9_record_completion_not_idempotent dbC9 4 1 10 10 (by decide)

/-! ### Leaderboard claims -/

theorem countP_user_id_eq_one (l : List User) (uid : Nat)
    (hn : (l.map User.user_id).Nodup) (hm : ∃ u ∈ l, u.user_id = uid) :
    l.countP (fun u => u.user_id == uid) = 1 := by
  induction l with
  | nil => simp at hm
  | cons x l ih =>
    simp only [List.map_cons, List.nodup_cons] at hn
    rw [List.countP_cons]
    by_cases hx : x.user_id = uid
    · have hz : l.countP (fun u => u.user_id == uid) = 0 := by
        rw [List.countP_eq_zero]
        intro y hy hp
        have he : y.user_id = uid := by simpa using hp
        exact hn.1 (by rw [hx, ← he]; exact List.mem_map_of_mem User.user_id hy)
      simp [hx, hz]
    · rcases hm with ⟨u, hu, he⟩
      rcases List.mem_cons.1 hu with h | h
      · exact absurd (h ▸ he) hx
      · simp [hx, ih hn.2 ⟨u, h, he⟩]

/-- Users A (id 1: 3 in-window completions at times 1, 2, 3 and 2 out-of-window
at times -5 and 0) and B (id 2: none), built by running the operations; at
`now = 2592000` the window cutoff is exactly 0, so the completion at time 0 is
excluded (strict comparison). -/
def dbAB : DB := runOps [
  .registerUser 1 (some "a") (some "A"),
  .registerUser 2 (some "b") (some "B"),
  .setChallenge 1 "x" "daily" (-10),
  .recordCompletion 1 1 (-5),
  .recordCompletion 1 1 0,
  .recordCompletion 1 1 1,
  .recordCompletion 1 1 2,
  .recordCompletion 1 1 3]

/-- The user row of A in `dbAB`. -/
def uA : User := ⟨1, some "a", some "A"⟩

/-- C5: the monthly stats query yields one row per users-table row (left-join,
zero-completion users included); its rows are in non-increasing order of
count; every user appears with count equal to their number of completion rows
timestamped strictly later than now minus 30 days; and on the concrete A/B
instance it returns A with count 3 (the two out-of-window rows excluded)
ordered before B with count 0. -/
theorem C5_monthly_leaderboard_correct :
    (∀ db now, (get_monthly_stats db now).length = db.users.length) ∧
    (∀ db now, List.Pairwise (fun a b => b.2.2 ≤ a.2.2) (get_monthly_stats db now)) ∧
    (∀ db now u, u ∈ db.users →
      (u.first_name, u.username,
        (db.completions.filter
          (fun c => c.user_id == u.user_id && now - 30 * 86400 < c.completed_at)).length)
        ∈ get_monthly_stats db now) ∧
    get_monthly_stats dbAB 2592000 = [(some "A", some "a", 3), (some "B", some "b", 0)] := by
  refine ⟨?_, ?_, ?_, by decide⟩
  · intro db now
    simp [get_monthly_stats, List.length_insertionSort, groupRows]
  · intro db now
    unfold get_monthly_stats
    rw [List.pairwise_map]
    exact List.sorted_insertionSort statOrder (groupRows db now)
  · intro db now u hu
    have h1 : (⟨u.user_id, u.first_name, u.username, completionCount db u.user_id now⟩ : GroupRow)
        ∈ groupRows db now := List.mem_map_of_mem _ hu
    have h2 : (⟨u.user_id, u.first_name, u.username, completionCount db u.user_id now⟩ : GroupRow)
        ∈ List.insertionSort statOrder (groupRows db now) :=
      (List.mem_insertionSort statOrder).2 h1
    exact List.mem_map_of_mem
      (fun r : GroupRow => (r.first_name, r.username, r.completion_count)) h2

/-- C5 witness: the per-user count formula instantiated at user A of the
concrete database. -/
theorem C5_witness :
    (uA.first_name, uA.username,
      (dbAB.completions.filter
        (fun c => c.user_id == uA.user_id && (2592000 : Int) - 30 * 86400 < c.completed_at)).length)
      ∈ get_monthly_stats dbAB 2592000 :=
  C5_monthly_leaderboard_correct.2.2.1 dbAB 2592000 uA (by decide)

/-- C10: in every reachable state, each registered user id yields exactly one
row of the sorted leaderboard aggregation (the `GROUP BY u.user_id` rows that
`get_monthly_stats` then projects to name/handle/count tuples). -/
theorem C10_leaderboard_one_entry_per_user :
    ∀ ops now uid, (∃ u ∈ (runOps ops).users, u.user_id = uid) →
      ((List.insertionSort statOrder (groupRows (runOps ops) now)).filter
        (fun r => r.user_id == uid)).length = 1 := by
  intro ops now uid hm
  rw [← List.countP_eq_length_filter]
  rw [(List.perm_insertionSort statOrder (groupRows (runOps ops) now)).countP_eq]
  unfold groupRows
  rw [List.countP_map]
  exact countP_user_id_eq_one (runOps ops).users uid (runOps_users_nodup ops) hm

/-- The operation sequence of the C10 witness: one user, one challenge, one
completion. -/
def opsW : List Op := [.registerUser 5 (some "e") (some "E"),
  .setChallenge 5 "y" "weekly" 0, .recordCompletion 5 1 1]

/-- C10 witness: the registered user 5 has exactly one row in the sorted
aggregation of the reachable state. -/
theorem C10_witness :
    ((List.insertionSort statOrder (groupRows (runOps opsW) 10)).filter
      (fun r => r.user_id == 5)).length = 1 :=
  C10_leaderboard_one_entry_per_user opsW 10 5 (by decide)
